import Mathlib

/-!
Verification development for the build-provenance book preprocessor.

The definitions below are a shallow embedding of the core logic in
src/lib.rs: manifest metadata resolution (CargoToml), configuration
resolution (Config), revision resolution (determine_git_rev), footer
composition and application (Processor.run, Processor.handle_bookitem).
Rust strings are modelled as Lean strings at character level (the byte
level operations used by the code, truncate and is_empty, agree with the
character level on the ASCII data involved); filesystem and git access
are modelled as explicit oracle state passed into the run.
-/

/-- Character level model of Rust String::is_empty (len == 0). -/
def strIsEmpty (s : String) : Bool := s.data.isEmpty

/-- Character level model of Rust String::truncate, a prefix take. -/
def strTruncate (s : String) (n : Nat) : String := String.mk (s.data.take n)

/-- Model of a TOML value as seen by the configuration lookup: only the
shapes the six fields can successfully deserialize to are distinguished,
everything else is a wrong shape for every field. -/
inductive TomlValue where
  | str (s : String)
  | int (n : Int)
  | bool (b : Bool)
  | other
deriving DecidableEq

/-- Lookup of a boolean configuration value: missing key gives ok none,
a present boolean gives it back, any other shape is a type error
carrying the key (models ctx.config.get for a bool field). -/
def getTomlBool (src : String → Option TomlValue) (key : String) :
    Except String (Option Bool) :=
  match src key with
  | none => .ok none
  | some (.bool b) => .ok (some b)
  | some _ => .error key

/-- Lookup of an unsigned integer configuration value: TOML integers are
signed, so a negative value is a type error, as is any non integer. -/
def getTomlUsize (src : String → Option TomlValue) (key : String) :
    Except String (Option Nat) :=
  match src key with
  | none => .ok none
  | some (.int n) => if 0 ≤ n then .ok (some n.toNat) else .error key
  | some _ => .error key

/-- Lookup of a path configuration value, deserialized from a string. -/
def getTomlPath (src : String → Option TomlValue) (key : String) :
    Except String (Option String) :=
  match src key with
  | none => .ok none
  | some (.str s) => .ok (some s)
  | some _ => .error key

/-- Embeds struct Config from src/lib.rs; PathBuf is modelled as String. -/
structure Config where
  commit_characters : Nat
  workspace_dir : String
  git_dir : String
  package_name : Bool
  package_version : Bool
  git_commit : Bool
deriving DecidableEq

/-- Embeds the cfg_key closure in Config::try_from:
format of "preprocessor.{}.{}" with "build-annotations" and the key. -/
def cfg_key (key : String) : String :=
  "preprocessor." ++ "build-annotations" ++ "." ++ key

/-- Embeds impl TryFrom for Config (src/lib.rs lines 63 to 80): each of
the six fields is looked up under its namespaced key, a missing key is
replaced by the documented default, and a wrong shaped value aborts. -/
def Config.try_from (config : String → Option TomlValue) : Except String Config :=
  match getTomlUsize config (cfg_key "commit_characters") with
  | .error e => .error e
  | .ok commit_characters =>
  match getTomlPath config (cfg_key "workspace_dir") with
  | .error e => .error e
  | .ok workspace_dir =>
  match getTomlPath config (cfg_key "git_dir") with
  | .error e => .error e
  | .ok git_dir =>
  match getTomlBool config (cfg_key "package_name") with
  | .error e => .error e
  | .ok package_name =>
  match getTomlBool config (cfg_key "package_version") with
  | .error e => .error e
  | .ok package_version =>
  match getTomlBool config (cfg_key "git_commit") with
  | .error e => .error e
  | .ok git_commit =>
  .ok {
    commit_characters := commit_characters.getD 10
    workspace_dir := workspace_dir.getD "../"
    git_dir := git_dir.getD "../"
    package_name := package_name.getD true
    package_version := package_version.getD true
    git_commit := git_commit.getD true }

/-- Embeds struct CargoPackage: both fields are required by the parser. -/
structure CargoPackage where
  name : String
  version : String
deriving DecidableEq

/-- Embeds struct CargoToml: two optional tables. -/
structure CargoToml where
  package : Option CargoPackage
  workspace : Option CargoPackage
deriving DecidableEq

/-- Embeds the method CargoToml::package (renamed here because the field
of the same name exists): prefers the package table, falls back to the
workspace table. -/
def CargoToml.packageOrWorkspace (t : CargoToml) : Option CargoPackage :=
  match t.package with
  | some p => some p
  | none => t.workspace

/-- Embeds CargoToml::name. -/
def CargoToml.name (t : CargoToml) : Option String :=
  t.packageOrWorkspace.map (fun pkg => pkg.name)

/-- Embeds CargoToml::version. -/
def CargoToml.version (t : CargoToml) : Option String :=
  t.packageOrWorkspace.map (fun pkg => pkg.version)

/-- Oracle state for one git repository handle: the commit identifier
reached by resolving HEAD and peeling it to a commit, or none when
either step fails. -/
structure GixRepo where
  head_commit : Option String
deriving DecidableEq

/-- Oracle state for the directory determine_git_rev is pointed at:
whether canonicalize succeeds, and the repository gix::open finds, if
any. -/
structure GitDirState where
  canonicalize_ok : Bool
  repo : Option GixRepo
deriving DecidableEq

/-- Embeds determine_git_rev (src/lib.rs lines 154 to 170): canonicalize
failure, open failure, and head or peel failure each give none; on
success the commit identifier is truncated to commit_characters. -/
def determine_git_rev (dir : GitDirState) (commit_characters : Nat) : Option String :=
  match dir.canonicalize_ok with
  | false => none
  | true =>
    match dir.repo with
    | none => none
    | some repo =>
      match repo.head_commit with
      | none => none
      | some commit_id => some (strTruncate commit_id commit_characters)

mutual
/-- Content tree node, modelling mdbook BookItem: a chapter carries
textual content and nested sub items, the other two variants are
structural. -/
inductive BookItem where
  | chapter (content : String) (sub_items : BookItems)
  | separator
  | partTitle (title : String)
deriving DecidableEq
/-- List of content tree nodes, modelling Vec of BookItem. -/
inductive BookItems where
  | nil
  | cons (head : BookItem) (tail : BookItems)
deriving DecidableEq
end

/-- The book is its list of top level sections, modelling mdbook Book. -/
structure Book where
  sections : BookItems
deriving DecidableEq

mutual
/-- Modelled from the spec: mdbook Book::for_each_mut is an external
collaborator not in this repository; per the spec it visits every node
of the tree recursively, applying the callback to each node, recursing
into chapter sub items. -/
def forEachMutItem (f : BookItem → BookItem) : BookItem → BookItem
  | .chapter content sub_items => f (.chapter content (forEachMutItems f sub_items))
  | .separator => f .separator
  | .partTitle t => f (.partTitle t)
/-- Recursive visit over a list of nodes. -/
def forEachMutItems (f : BookItem → BookItem) : BookItems → BookItems
  | .nil => .nil
  | .cons i t => .cons (forEachMutItem f i) (forEachMutItems f t)
end

/-- Modelled from the spec: Book::for_each_mut over the sections. -/
def Book.for_each_mut (f : BookItem → BookItem) (b : Book) : Book :=
  { sections := forEachMutItems f b.sections }

/-- Embeds Processor::handle_bookitem (src/lib.rs lines 84 to 88):
append the footer to a chapter, leave every other variant alone. -/
def Processor.handle_bookitem (item : BookItem) (footer : String) : BookItem :=
  match item with
  | .chapter content sub_items => .chapter (content ++ footer) sub_items
  | other => other

/-- Embeds the repeated push pattern of src/lib.rs lines 123 to 126 and
133 to 136: a space first when the footer is non empty, then the
fragment. -/
def pushFooterFragment (footer frag : String) : String :=
  (if strIsEmpty footer then footer else footer ++ " ") ++ frag

/-- Embeds src/lib.rs lines 114 to 120: the name step of composition. -/
def footerAfterName (cfg : Config) (name : Option String) : String :=
  if cfg.package_name then
    match name with
    | some n => "" ++ n
    | none => ""
  else ""

/-- Embeds src/lib.rs lines 121 to 130: the commit step. -/
def footerAfterCommit (cfg : Config) (commit : Option String) (footer : String) : String :=
  if cfg.git_commit then
    match commit with
    | some c => pushFooterFragment footer ("@" ++ c)
    | none => footer
  else footer

/-- Embeds src/lib.rs lines 131 to 140: the version step. -/
def footerAfterVersion (cfg : Config) (version : Option String) (footer : String) : String :=
  if cfg.package_version then
    match version with
    | some v => pushFooterFragment footer ("v" ++ v)
    | none => footer
  else footer

/-- Embeds the footer composition of Processor::run, lines 112 to 140:
the three steps applied in order to the initially empty footer. -/
def composeFooter (cfg : Config) (name version commit : Option String) : String :=
  footerAfterVersion cfg version
    (footerAfterCommit cfg commit
      (footerAfterName cfg name))

/-- Errors Processor::run can abort with, modelling the propagated
mdbook errors: a configuration type error carrying the offending key, a
manifest read failure, a manifest parse failure. -/
inductive RunError where
  | configError (key : String)
  | manifestReadError
  | manifestParseError
deriving DecidableEq

/-- Model of PathBuf::join for the one relative join the code does. -/
def pathJoin (base child : String) : String := base ++ "/" ++ child

/-- Oracle environment for one run: the configuration lookup, the
filesystem read, the TOML parse of the manifest, and the git state
found at a given directory. -/
structure RunEnv where
  config : String → Option TomlValue
  readFile : String → Except Unit String
  parseCargoToml : String → Except Unit CargoToml
  gitState : String → GitDirState

/-- Embeds Processor::run (src/lib.rs lines 96 to 151): resolve the
configuration, read and parse the manifest (both fatal on failure),
resolve the revision (never fatal), compose the footer; an empty footer
returns the book untouched, otherwise the wrapped footer is appended to
every chapter. -/
def Processor.run (env : RunEnv) (book : Book) : Except RunError Book :=
  match Config.try_from env.config with
  | .error key => .error (.configError key)
  | .ok cfg =>
    match env.readFile (pathJoin cfg.workspace_dir "Cargo.toml") with
    | .error _ => .error .manifestReadError
    | .ok cargo_file =>
      match env.parseCargoToml cargo_file with
      | .error _ => .error .manifestParseError
      | .ok cargo_toml =>
        let commit := determine_git_rev (env.gitState cfg.git_dir) cfg.commit_characters
        let footer := composeFooter cfg cargo_toml.name cargo_toml.version commit
        if strIsEmpty footer then .ok book
        else
          .ok (Book.for_each_mut
            (fun item => Processor.handle_bookitem item ("<footer>" ++ footer ++ "</footer>"))
            book)

/-!
Specification side definitions, written from the words of the spec for
comparison against the embedded code: the footer is the list of
enabled and available fragments, in the fixed order name, at-revision,
v-version, joined by exactly one space.
-/

/-- Specification side: the name fragment list, when enabled and available. -/
def fragIfName (enabled : Bool) (name : Option String) : List String :=
  match enabled, name with
  | true, some n => [n]
  | _, _ => []

/-- Specification side: the revision fragment list, at-prefixed. -/
def fragIfCommit (enabled : Bool) (commit : Option String) : List String :=
  match enabled, commit with
  | true, some c => ["@" ++ c]
  | _, _ => []

/-- Specification side: the version fragment list, v-prefixed. -/
def fragIfVersion (enabled : Bool) (version : Option String) : List String :=
  match enabled, version with
  | true, some v => ["v" ++ v]
  | _, _ => []

/-- Specification side: the enabled and available fragments in the
fixed order name, revision, version. -/
def specFragments (cfg : Config) (name version commit : Option String) : List String :=
  fragIfName cfg.package_name name ++
    fragIfCommit cfg.git_commit commit ++
      fragIfVersion cfg.package_version version

/-- Specification side: fragments joined with exactly one space between
consecutive fragments. -/
def joinSpace : List String → String
  | [] => ""
  | [x] => x
  | x :: xs => x ++ " " ++ joinSpace xs

mutual
/-- Specification side applicator: every chapter gains the footer
appended verbatim to its prior content, recursively; the other node
variants are returned unchanged. -/
def appendFooterItem (footer : String) : BookItem → BookItem
  | .chapter content sub_items => .chapter (content ++ footer) (appendFooterItems footer sub_items)
  | .separator => .separator
  | .partTitle t => .partTitle t
/-- Specification side applicator on a node list. -/
def appendFooterItems (footer : String) : BookItems → BookItems
  | .nil => .nil
  | .cons i t => .cons (appendFooterItem footer i) (appendFooterItems footer t)
end

mutual
/-- Number of nodes in a tree rooted at one node. -/
def countItem : BookItem → Nat
  | .chapter _ sub_items => 1 + countItems sub_items
  | .separator => 1
  | .partTitle _ => 1
/-- Number of nodes in a node list. -/
def countItems : BookItems → Nat
  | .nil => 0
  | .cons i t => countItem i + countItems t
end

/-!
Helper lemmas about strings, joinSpace, and footer composition.
-/

theorem strIsEmpty_iff (s : String) : strIsEmpty s = true ↔ s = "" := by
  cases s with
  | mk l => cases l <;> simp [strIsEmpty, List.isEmpty, String.ext_iff]

theorem strIsEmpty_empty : strIsEmpty "" = true := rfl

theorem strIsEmpty_false_of_ne (s : String) (h : s ≠ "") : strIsEmpty s = false := by
  cases hb : strIsEmpty s with
  | false => rfl
  | true => exact absurd ((strIsEmpty_iff s).mp hb) h

theorem empty_append_str (s : String) : "" ++ s = s := by
  cases s with
  | mk l => show String.mk ([] ++ l) = String.mk l; rfl

theorem at_frag_ne_empty (c : String) : "@" ++ c ≠ "" := by
  cases c with
  | mk l =>
    intro h
    exact absurd (congrArg String.data h) (by simp [String.data_append])

theorem v_frag_ne_empty (c : String) : "v" ++ c ≠ "" := by
  cases c with
  | mk l =>
    intro h
    exact absurd (congrArg String.data h) (by simp [String.data_append])

theorem joinSpace_cons_cons (x y : String) (xs : List String) :
    joinSpace (x :: y :: xs) = x ++ " " ++ joinSpace (y :: xs) := rfl

theorem joinSpace_append_singleton (l : List String) (x : String) (h : l ≠ []) :
    joinSpace (l ++ [x]) = joinSpace l ++ " " ++ x := by
  induction l with
  | nil => exact absurd rfl h
  | cons a t ih =>
    cases t with
    | nil => rfl
    | cons b t2 =>
      have hne : b :: t2 ≠ [] := by simp
      calc joinSpace ((a :: b :: t2) ++ [x])
          = a ++ " " ++ joinSpace ((b :: t2) ++ [x]) := rfl
        _ = a ++ " " ++ (joinSpace (b :: t2) ++ " " ++ x) := by rw [ih hne]
        _ = joinSpace (a :: b :: t2) ++ " " ++ x := by
              rw [joinSpace_cons_cons]
              simp [String.append_assoc]

theorem strIsEmpty_joinSpace_cons (x : String) (xs : List String) (hx : x ≠ "") :
    strIsEmpty (joinSpace (x :: xs)) = false := by
  cases xs with
  | nil => exact strIsEmpty_false_of_ne x hx
  | cons y t =>
    rw [joinSpace_cons_cons]
    cases x with
    | mk l =>
      have hl : l ≠ [] := by
        intro h0
        exact hx (by cases h0; rfl)
      cases l with
      | nil => exact absurd rfl hl
      | cons a t2 => simp [strIsEmpty, String.data_append, List.isEmpty]

/-- Invariant carried through the three composition steps: the footer so
far equals the joined fragment list so far, and no fragment is the
empty string. -/
def FooterInv (footer : String) (l : List String) : Prop :=
  footer = joinSpace l ∧ ∀ x ∈ l, x ≠ ""

theorem pushFooterFragment_inv (footer : String) (l : List String) (frag : String)
    (hfrag : frag ≠ "") (h : FooterInv footer l) :
    FooterInv (pushFooterFragment footer frag) (l ++ [frag]) := by
  obtain ⟨heq, hne⟩ := h
  constructor
  · cases l with
    | nil =>
      subst heq
      show (if strIsEmpty (joinSpace []) then joinSpace [] else joinSpace [] ++ " ") ++ frag
          = joinSpace [frag]
      show (if strIsEmpty "" then "" else "" ++ " ") ++ frag = joinSpace [frag]
      rw [if_pos strIsEmpty_empty]
      exact empty_append_str frag
    | cons x xs =>
      subst heq
      show (if strIsEmpty (joinSpace (x :: xs)) then _ else _) ++ frag = _
      rw [strIsEmpty_joinSpace_cons x xs (hne x (by simp))]
      show joinSpace (x :: xs) ++ " " ++ frag = joinSpace ((x :: xs) ++ [frag])
      rw [joinSpace_append_singleton (x :: xs) frag (by simp)]
  · intro y hy
    rcases List.mem_append.mp hy with h1 | h2
    · exact hne y h1
    · simp at h2; subst h2; exact hfrag

theorem footerAfterName_inv (cfg : Config) (name : Option String)
    (h : cfg.package_name = true → name ≠ some "") :
    FooterInv (footerAfterName cfg name) (fragIfName cfg.package_name name) := by
  unfold footerAfterName fragIfName
  cases hpn : cfg.package_name with
  | false => exact ⟨rfl, by simp⟩
  | true =>
    cases name with
    | none => exact ⟨rfl, by simp⟩
    | some n =>
      refine ⟨?_, ?_⟩
      · show "" ++ n = joinSpace [n]
        exact empty_append_str n
      · intro x hx
        simp at hx
        subst hx
        intro hx0
        exact h hpn (by rw [hx0])

theorem footerAfterCommit_inv (cfg : Config) (commit : Option String)
    (footer : String) (l : List String) (h : FooterInv footer l) :
    FooterInv (footerAfterCommit cfg commit footer)
      (l ++ fragIfCommit cfg.git_commit commit) := by
  unfold footerAfterCommit fragIfCommit
  cases hgc : cfg.git_commit with
  | false => simpa using h
  | true =>
    cases commit with
    | none => simpa using h
    | some c =>
      exact pushFooterFragment_inv footer l ("@" ++ c) (at_frag_ne_empty c) h

theorem footerAfterVersion_inv (cfg : Config) (version : Option String)
    (footer : String) (l : List String) (h : FooterInv footer l) :
    FooterInv (footerAfterVersion cfg version footer)
      (l ++ fragIfVersion cfg.package_version version) := by
  unfold footerAfterVersion fragIfVersion
  cases hpv : cfg.package_version with
  | false => simpa using h
  | true =>
    cases version with
    | none => simpa using h
    | some v =>
      exact pushFooterFragment_inv footer l ("v" ++ v) (v_frag_ne_empty v) h

theorem composeFooter_inv (cfg : Config) (name version commit : Option String)
    (h : cfg.package_name = true → name ≠ some "") :
    FooterInv (composeFooter cfg name version commit)
      (specFragments cfg name version commit) := by
  unfold composeFooter specFragments
  exact footerAfterVersion_inv cfg version _ _
    (footerAfterCommit_inv cfg commit _ _
      (footerAfterName_inv cfg name h))

theorem composeFooter_empty (cfg : Config) (name version commit : Option String)
    (hn : cfg.package_name = true → name = none)
    (hc : cfg.git_commit = true → commit = none)
    (hv : cfg.package_version = true → version = none) :
    composeFooter cfg name version commit = "" := by
  unfold composeFooter footerAfterVersion footerAfterCommit footerAfterName
  cases hpn : cfg.package_name <;> cases hgc : cfg.git_commit <;>
    cases hpv : cfg.package_version <;> simp_all

mutual
theorem forEachMutItem_append (footer : String) :
    ∀ item, forEachMutItem (fun i => Processor.handle_bookitem i footer) item =
      appendFooterItem footer item
  | .chapter c sub => by
      simp only [forEachMutItem, forEachMutItems_append footer sub, appendFooterItem]
      rfl
  | .separator => rfl
  | .partTitle t => rfl
theorem forEachMutItems_append (footer : String) :
    ∀ items, forEachMutItems (fun i => Processor.handle_bookitem i footer) items =
      appendFooterItems footer items
  | .nil => rfl
  | .cons i t => by
      simp only [forEachMutItems, appendFooterItems, forEachMutItem_append footer i,
        forEachMutItems_append footer t]
end

mutual
theorem countItem_append (footer : String) :
    ∀ item, countItem (appendFooterItem footer item) = countItem item
  | .chapter c sub => by
      simp [appendFooterItem, countItem, countItems_append footer sub]
  | .separator => rfl
  | .partTitle t => rfl
theorem countItems_append (footer : String) :
    ∀ items, countItems (appendFooterItems footer items) = countItems items
  | .nil => rfl
  | .cons i t => by
      simp [appendFooterItems, countItems, countItem_append footer i,
        countItems_append footer t]
end

theorem determine_git_rev_none_of_no_repo (dir : GitDirState) (cc : Nat)
    (h : dir.repo = none) : determine_git_rev dir cc = none := by
  cases dir with
  | mk co repo =>
    simp only at h
    subst h
    cases co <;> rfl

theorem determine_git_rev_none_of_no_head (dir : GitDirState) (cc : Nat) (r : GixRepo)
    (h : dir.repo = some r) (h2 : r.head_commit = none) :
    determine_git_rev dir cc = none := by
  cases dir with
  | mk co repo =>
    simp only at h
    subst h
    cases r with
    | mk hc =>
      simp only at h2
      subst h2
      cases co <;> rfl

/-!
Concrete fixtures used by witnesses and counterexamples.
-/

/-- Configuration resolved from an empty source: every field default. -/
def cfgDefault : Config :=
  { commit_characters := 10, workspace_dir := "../", git_dir := "../",
    package_name := true, package_version := true, git_commit := true }

/-- Git directory state with a resolvable repository holding a 40
character commit identifier. -/
def gitResolvable : GitDirState :=
  { canonicalize_ok := true,
    repo := some { head_commit := some "0123456789abcdef0123456789abcdef01234567" } }

/-- Git directory state where gix open fails. -/
def gitUnopenable : GitDirState := { canonicalize_ok := true, repo := none }

/-- Small concrete book used by witnesses. -/
def sampleBook : Book :=
  { sections := .cons (.chapter "hello" .nil) (.cons .separator .nil) }

/-- Environment with no configuration keys set, an empty readable
manifest with no tables, and an unopenable repository. -/
def envNoFacts : RunEnv :=
  { config := fun _ => none
    readFile := fun _ => .ok ""
    parseCargoToml := fun _ => .ok { package := none, workspace := none }
    gitState := fun _ => gitUnopenable }

/-- Environment whose manifest read fails. -/
def envReadFail : RunEnv :=
  { config := fun _ => none
    readFile := fun _ => .error ()
    parseCargoToml := fun _ => .ok { package := none, workspace := none }
    gitState := fun _ => gitUnopenable }

/-!
Claim theorems.
-/

/-- C1 counterexample: with the name flag enabled, the name fact
available but equal to the empty string, and a revision available, the
composed footer is not the space joined fragment list: the code checks
emptiness of the accumulated string, so the empty name fragment loses
its following separator. -/
theorem footer_ordered_fragments_cex :
    composeFooter cfgDefault (some "") none (some "abc") ≠
      joinSpace (specFragments cfgDefault (some "") none (some "abc")) := by
  decide

/-- C1 (amended): for every combination of the three flags and every
availability of the three facts, provided an enabled and available
package name is not the empty string, the composed footer is exactly
the enabled and available fragments in the fixed order name, at-prefixed
revision, v-prefixed version, each separated from the previous by
exactly one space, and the wrapped footer is that string inside the
marker pair; with the first ordered facts disabled or unavailable there
is no leading space, since the joined list has none. -/
theorem footer_ordered_fragments (cfg : Config) (name version commit : Option String)
    (hname : cfg.package_name = true → name ≠ some "") :
    composeFooter cfg name version commit =
      joinSpace (specFragments cfg name version commit) ∧
    "<footer>" ++ composeFooter cfg name version commit ++ "</footer>" =
      "<footer>" ++ joinSpace (specFragments cfg name version commit) ++ "</footer>" := by
  have h := (composeFooter_inv cfg name version commit hname).1
  exact ⟨h, by rw [h]⟩

/-- C1 witness: concrete evaluation with all flags enabled and all
facts available. -/
theorem footer_ordered_fragments_witness :
    composeFooter cfgDefault (some "foo") (some "1.0") (some "abc") =
      joinSpace (specFragments cfgDefault (some "foo") (some "1.0") (some "abc")) ∧
    composeFooter cfgDefault (some "foo") (some "1.0") (some "abc") = "foo @abc v1.0" :=
  ⟨(footer_ordered_fragments cfgDefault (some "foo") (some "1.0") (some "abc")
      (by decide)).1, by decide⟩

/-- C2: whenever every enabled fact is unavailable, the composed footer
is empty and the run returns the book unchanged: no chapter is mutated
and no markers are appended. -/
theorem run_skips_when_no_facts (env : RunEnv) (book : Book) (cfg : Config)
    (s : String) (t : CargoToml)
    (hcfg : Config.try_from env.config = .ok cfg)
    (hread : env.readFile (pathJoin cfg.workspace_dir "Cargo.toml") = .ok s)
    (hparse : env.parseCargoToml s = .ok t)
    (hname : cfg.package_name = true → t.name = none)
    (hcommit : cfg.git_commit = true →
      determine_git_rev (env.gitState cfg.git_dir) cfg.commit_characters = none)
    (hversion : cfg.package_version = true → t.version = none) :
    Processor.run env book = .ok book := by
  have hempty := composeFooter_empty cfg t.name t.version
      (determine_git_rev (env.gitState cfg.git_dir) cfg.commit_characters)
      hname hcommit hversion
  simp [Processor.run, hcfg, hread, hparse, hempty, strIsEmpty_empty]

/-- C2 witness: all flags defaulted to enabled, a manifest with no
tables, an unopenable repository: the run returns the sample book
unchanged. -/
theorem run_skips_when_no_facts_witness :
    Processor.run envNoFacts sampleBook = .ok sampleBook :=
  run_skips_when_no_facts envNoFacts sampleBook cfgDefault ""
    { package := none, workspace := none } rfl rfl rfl
    (fun _ => rfl) (fun _ => rfl) (fun _ => rfl)

/-- C3: metadata resolution prefers the package table over the
workspace table, falls back to the workspace table when only that one
is present, and yields absent name and version when neither table is
present. -/
theorem cargo_toml_precedence (p w : CargoPackage) :
    (CargoToml.name { package := some p, workspace := some w } = some p.name ∧
     CargoToml.version { package := some p, workspace := some w } = some p.version) ∧
    (CargoToml.name { package := none, workspace := some w } = some w.name ∧
     CargoToml.version { package := none, workspace := some w } = some w.version) ∧
    (CargoToml.name { package := none, workspace := none } = none ∧
     CargoToml.version { package := none, workspace := none } = none) :=
  ⟨⟨rfl, rfl⟩, ⟨rfl, rfl⟩, ⟨rfl, rfl⟩⟩

/-- C4: revision resolution returns the prefix take of the commit
identifier: the data of the result is the length bounded prefix of the
identifier data, the identifier is returned unchanged when the bound is
at least its length, and the result has length exactly the bound when
the bound is smaller. -/
theorem git_rev_truncation (g : GitDirState) (id : String) (L : Nat)
    (hc : g.canonicalize_ok = true)
    (hr : g.repo = some { head_commit := some id }) :
    determine_git_rev g L = some (strTruncate id L) ∧
    (strTruncate id L).data = id.data.take L ∧
    (id.length ≤ L → strTruncate id L = id) ∧
    (L < id.length → (strTruncate id L).length = L) := by
  refine ⟨?_, rfl, ?_, ?_⟩
  · cases g with
    | mk co repo =>
      simp only at hc hr
      subst hc
      subst hr
      rfl
  · intro hL
    unfold strTruncate
    cases id with
    | mk l =>
      show String.mk (l.take L) = String.mk l
      rw [List.take_of_length_le hL]
  · intro hL
    show (id.data.take L).length = L
    rw [List.length_take]
    exact Nat.min_eq_left (Nat.le_of_lt hL)

/-- C4 witness: the 40 character identifier truncated at 10 and at 100
characters. -/
theorem git_rev_truncation_witness :
    determine_git_rev gitResolvable 10 = some "0123456789" ∧
    determine_git_rev gitResolvable 100 =
      some "0123456789abcdef0123456789abcdef01234567" := by
  constructor
  · rw [(git_rev_truncation gitResolvable
      "0123456789abcdef0123456789abcdef01234567" 10 rfl rfl).1]
    decide
  · rw [(git_rev_truncation gitResolvable
      "0123456789abcdef0123456789abcdef01234567" 100 rfl rfl).1]
    decide

/-- C5 counterexample: at truncation length zero with a resolvable
repository the revision fragment contributed to the footer is the
marker, not empty: the composed footer gains a space and the marker,
so it differs from the footer with the revision absent. -/
theorem commit_chars_zero_cex :
    determine_git_rev gitResolvable 0 = some "" ∧
    composeFooter cfgDefault (some "foo") none (determine_git_rev gitResolvable 0) =
      "foo @" ∧
    composeFooter cfgDefault (some "foo") none none = "foo" ∧
    composeFooter cfgDefault (some "foo") none (determine_git_rev gitResolvable 0) ≠
      composeFooter cfgDefault (some "foo") none none := by
  decide

/-- C5 (amended): commit_characters zero is a legal value; revision
resolution on a resolvable repository then returns the empty
identifier, and the revision fragment contributed to the footer is
exactly the at marker with no identifier characters after it. -/
theorem commit_chars_zero_marker (g : GitDirState) (id : String) (cfg : Config)
    (hc : g.canonicalize_ok = true)
    (hr : g.repo = some { head_commit := some id })
    (hgc : cfg.git_commit = true) :
    determine_git_rev g 0 = some "" ∧
    fragIfCommit cfg.git_commit (determine_git_rev g 0) = ["@"] := by
  have h0 : determine_git_rev g 0 = some "" := by
    cases g with
    | mk co repo =>
      simp only at hc hr
      subst hc
      subst hr
      rfl
  refine ⟨h0, ?_⟩
  rw [h0, hgc]
  rfl

/-- C5 witness: concrete evaluation at the resolvable repository with
the default configuration. -/
theorem commit_chars_zero_marker_witness :
    determine_git_rev gitResolvable 0 = some "" ∧
    fragIfCommit cfgDefault.git_commit (determine_git_rev gitResolvable 0) = ["@"] :=
  commit_chars_zero_marker gitResolvable
    "0123456789abcdef0123456789abcdef01234567" cfgDefault rfl rfl rfl

/-- C6: after a successful configuration resolution, an unreadable
manifest aborts the whole run with the manifest read error and an
unparsable one with the manifest parse error, while an unopenable
repository or an unresolvable head only makes the revision absent and
the run, given a readable and parsable manifest, still returns a book
successfully. -/
theorem run_error_taxonomy (env : RunEnv) (book : Book) (cfg : Config)
    (hcfg : Config.try_from env.config = .ok cfg) :
    (env.readFile (pathJoin cfg.workspace_dir "Cargo.toml") = .error () →
      Processor.run env book = .error .manifestReadError) ∧
    (∀ s, env.readFile (pathJoin cfg.workspace_dir "Cargo.toml") = .ok s →
      env.parseCargoToml s = .error () →
      Processor.run env book = .error .manifestParseError) ∧
    ((env.gitState cfg.git_dir).repo = none →
      determine_git_rev (env.gitState cfg.git_dir) cfg.commit_characters = none) ∧
    (∀ r, (env.gitState cfg.git_dir).repo = some r → r.head_commit = none →
      determine_git_rev (env.gitState cfg.git_dir) cfg.commit_characters = none) ∧
    (∀ s t, env.readFile (pathJoin cfg.workspace_dir "Cargo.toml") = .ok s →
      env.parseCargoToml s = .ok t →
      ∃ b, Processor.run env book = .ok b) := by
  refine ⟨?_, ?_, ?_, ?_, ?_⟩
  · intro hread
    simp [Processor.run, hcfg, hread]
  · intro s hread hparse
    simp [Processor.run, hcfg, hread, hparse]
  · intro hrepo
    exact determine_git_rev_none_of_no_repo _ _ hrepo
  · intro r hrepo hhead
    exact determine_git_rev_none_of_no_head _ _ r hrepo hhead
  · intro s t hread hparse
    simp only [Processor.run, hcfg, hread, hparse]
    split
    · exact ⟨book, rfl⟩
    · exact ⟨_, rfl⟩

/-- C6 witness: with the default configuration and a failing manifest
read the run aborts with the manifest read error. -/
theorem run_error_taxonomy_witness :
    Processor.run envReadFail sampleBook = .error .manifestReadError :=
  (run_error_taxonomy envReadFail sampleBook cfgDefault rfl).1 rfl

/-- C7: applying the annotation callback over the whole tree appends
the identical footer verbatim to the content of every chapter node,
returns every non chapter node unchanged, and neither adds nor removes
nodes: the result is exactly the specification side recursive append,
and the node count is preserved. -/
theorem applicator_frame (footer : String) (b : Book) :
    Book.for_each_mut (fun item => Processor.handle_bookitem item footer) b =
      { sections := appendFooterItems footer b.sections } ∧
    countItems (Book.for_each_mut
        (fun item => Processor.handle_bookitem item footer) b).sections =
      countItems b.sections := by
  have h := forEachMutItems_append footer b.sections
  constructor
  · simp only [Book.for_each_mut, h]
  · simp only [Book.for_each_mut, h]
    exact countItems_append footer b.sections

/-- C8: the applicator is a total function and does not deduplicate:
applying it twice with the same footer to a chapter yields the prior
content with two copies of the footer appended. -/
theorem applicator_no_dedup (c : String) (sub : BookItems) (f : String) :
    Processor.handle_bookitem (Processor.handle_bookitem (.chapter c sub) f) f =
      .chapter (c ++ f ++ f) sub := rfl

/-- C9: configuration resolution substitutes the documented default for
each of the six fields whose key is missing, each field independently,
and fails whenever any of the six keys is present with a wrong shaped
value. -/
theorem config_resolution_contract (src : String → Option TomlValue) :
    (∀ cfg, Config.try_from src = .ok cfg →
      (src (cfg_key "commit_characters") = none → cfg.commit_characters = 10) ∧
      (src (cfg_key "workspace_dir") = none → cfg.workspace_dir = "../") ∧
      (src (cfg_key "git_dir") = none → cfg.git_dir = "../") ∧
      (src (cfg_key "package_name") = none → cfg.package_name = true) ∧
      (src (cfg_key "package_version") = none → cfg.package_version = true) ∧
      (src (cfg_key "git_commit") = none → cfg.git_commit = true)) ∧
    (((getTomlUsize src (cfg_key "commit_characters")).isOk = false ∨
      (getTomlPath src (cfg_key "workspace_dir")).isOk = false ∨
      (getTomlPath src (cfg_key "git_dir")).isOk = false ∨
      (getTomlBool src (cfg_key "package_name")).isOk = false ∨
      (getTomlBool src (cfg_key "package_version")).isOk = false ∨
      (getTomlBool src (cfg_key "git_commit")).isOk = false) →
      (Config.try_from src).isOk = false) := by
  cases h1 : getTomlUsize src (cfg_key "commit_characters") with
  | error e =>
    refine ⟨fun cfg hcfg => ?_, fun _ => ?_⟩
    · simp [Config.try_from, h1] at hcfg
    · simp [Config.try_from, h1, Except.isOk, Except.toBool]
  | ok v1 =>
  cases h2 : getTomlPath src (cfg_key "workspace_dir") with
  | error e =>
    refine ⟨fun cfg hcfg => ?_, fun _ => ?_⟩
    · simp [Config.try_from, h1, h2] at hcfg
    · simp [Config.try_from, h1, h2, Except.isOk, Except.toBool]
  | ok v2 =>
  cases h3 : getTomlPath src (cfg_key "git_dir") with
  | error e =>
    refine ⟨fun cfg hcfg => ?_, fun _ => ?_⟩
    · simp [Config.try_from, h1, h2, h3] at hcfg
    · simp [Config.try_from, h1, h2, h3, Except.isOk, Except.toBool]
  | ok v3 =>
  cases h4 : getTomlBool src (cfg_key "package_name") with
  | error e =>
    refine ⟨fun cfg hcfg => ?_, fun _ => ?_⟩
    · simp [Config.try_from, h1, h2, h3, h4] at hcfg
    · simp [Config.try_from, h1, h2, h3, h4, Except.isOk, Except.toBool]
  | ok v4 =>
  cases h5 : getTomlBool src (cfg_key "package_version") with
  | error e =>
    refine ⟨fun cfg hcfg => ?_, fun _ => ?_⟩
    · simp [Config.try_from, h1, h2, h3, h4, h5] at hcfg
    · simp [Config.try_from, h1, h2, h3, h4, h5, Except.isOk, Except.toBool]
  | ok v5 =>
  cases h6 : getTomlBool src (cfg_key "git_commit") with
  | error e =>
    refine ⟨fun cfg hcfg => ?_, fun _ => ?_⟩
    · simp [Config.try_from, h1, h2, h3, h4, h5, h6] at hcfg
    · simp [Config.try_from, h1, h2, h3, h4, h5, h6, Except.isOk, Except.toBool]
  | ok v6 =>
  constructor
  · intro cfg hcfg
    have heq : Config.try_from src = .ok
        { commit_characters := v1.getD 10
          workspace_dir := v2.getD "../"
          git_dir := v3.getD "../"
          package_name := v4.getD true
          package_version := v5.getD true
          git_commit := v6.getD true } := by
      simp [Config.try_from, h1, h2, h3, h4, h5, h6]
    rw [heq] at hcfg
    injection hcfg with hcfg
    subst hcfg
    refine ⟨fun hk => ?_, fun hk => ?_, fun hk => ?_,
      fun hk => ?_, fun hk => ?_, fun hk => ?_⟩
    · simp [getTomlUsize, hk] at h1; subst h1; rfl
    · simp [getTomlPath, hk] at h2; subst h2; rfl
    · simp [getTomlPath, hk] at h3; subst h3; rfl
    · simp [getTomlBool, hk] at h4; subst h4; rfl
    · simp [getTomlBool, hk] at h5; subst h5; rfl
    · simp [getTomlBool, hk] at h6; subst h6; rfl
  · intro hbad
    rcases hbad with hb | hb | hb | hb | hb | hb <;>
      simp [h1, h2, h3, h4, h5, h6, Except.isOk, Except.toBool] at hb

/-- C9 witness: with an empty configuration source, resolution succeeds
and every field carries its documented default. -/
theorem config_resolution_contract_witness :
    cfgDefault.commit_characters = 10 ∧ cfgDefault.workspace_dir = "../" ∧
    cfgDefault.git_dir = "../" ∧ cfgDefault.package_name = true ∧
    cfgDefault.package_version = true ∧ cfgDefault.git_commit = true := by
  have h := (config_resolution_contract (fun _ => none)).1 cfgDefault rfl
  exact ⟨h.1 rfl, h.2.1 rfl, h.2.2.1 rfl, h.2.2.2.1 rfl,
    h.2.2.2.2.1 rfl, h.2.2.2.2.2 rfl⟩

/-- C10: for every parsed manifest the resolved name is present exactly
when the resolved version is present: both accessors read the same
single table, whose two fields are both required. -/
theorem name_iff_version (t : CargoToml) :
    (CargoToml.name t).isSome = (CargoToml.version t).isSome := by
  cases t with
  | mk p w => cases p <;> cases w <;> rfl
